import Mathlib

/-!
Verification of the `asn1` BER/DER library (Go).

This file gives a shallow embedding of the library's decoding path and of
its schema machinery, translated from `asn1.go`, `context.go`, `decode.go`
and `options.go`.  Bytes are `Nat`s (each `< 256` on real inputs), byte
buffers are `List Nat`, Go errors become the `Asn1Error` inductive, and the
mutual recursion between the decoder and the schema resolver is made total
with an explicit fuel parameter (`Asn1Error.outOfFuel` is the model's
artefact for fuel exhaustion and never occurs for sufficiently large fuel).

Parts of the repository are not in the sources available here (the raw
TLV reader, the primitive universal-type codecs and the two `sort.Sort`
comparators); those are modelled from the specification and marked
`Modelled from the spec:` in their doc comments.
-/

namespace Asn1

/-- Errors.  `parseError` and `syntaxError` embed the two error structs of
`asn1.go`; `goError` embeds a plain Go `error` built with `fmt.Errorf`;
`outOfFuel` is an artefact of the fuel-based embedding. -/
inductive Asn1Error where
  | parseError (msg : String)
  | syntaxError (msg : String)
  | goError (msg : String)
  | outOfFuel
deriving DecidableEq, Repr

instance {ε α : Type} [DecidableEq ε] [DecidableEq α] : DecidableEq (Except ε α)
  | .error a, .error b =>
    if h : a = b then isTrue (by rw [h]) else isFalse (by intro hh; cases hh; exact h rfl)
  | .error _, .ok _ => isFalse (by intro h; cases h)
  | .ok _, .error _ => isFalse (by intro h; cases h)
  | .ok a, .ok b =>
    if h : a = b then isTrue (by rw [h]) else isFalse (by intro hh; cases hh; exact h rfl)

/-- Class constants of the library (`ClassUniversal = 0`, ... as in the wire
format: the top two bits of the identifier octet). -/
def ClassUniversal : Nat := 0

def ClassApplication : Nat := 1

def ClassContextSpecific : Nat := 2

def ClassPrivate : Nat := 3

/-- Universal tag constants used by `getUniversalTag`. -/
def TagBoolean : Nat := 1

def TagInteger : Nat := 2

def TagOctetString : Nat := 4

def TagNull : Nat := 5

def TagOid : Nat := 6

def TagSequence : Nat := 16

def TagSet : Nat := 17

/-- The option record of `options.go` (`fieldOptions`).  Field defaults are
the Go zero values. -/
structure fieldOptions where
  universal : Bool := false
  application : Bool := false
  explicit : Bool := false
  indefinite : Bool := false
  optional : Bool := false
  set : Bool := false
  tag : Option Int := none
  defaultValue : Option Int := none
  choice : Option String := none
deriving DecidableEq, Repr

/-- A raw TLV as produced by the wire reader (`RawValue`).  `Content` holds
the content octets. -/
structure RawValue where
  Class : Nat := 0
  Tag : Nat := 0
  Constructed : Bool := false
  Indefinite : Bool := false
  Content : List Nat := []
deriving DecidableEq, Repr

/-- The type of decoder functions (`decoderFunction`).  The embedding does
not track the decoded Go value, only success and errors, which is all the
matching engine observes. -/
abbrev decoderFunction := List Nat → Except Asn1Error Unit

/-- In-memory Go types, as far as the reflection dispatch of
`getUniversalTag` distinguishes them.  `byteT` is Go's `uint8`/`byte` (so
that `[]byte` and `[n]byte` map to OCTET STRING while other element types
map to SEQUENCE OF); `intT`/`uintT` stand for all other signed/unsigned
integer kinds, whose width plays no role in the claims below.  A struct
type carries its fields as `(field type, asn1 struct-tag string)` pairs.
`unsupportedT` stands for any Go kind without a codec (e.g. maps). -/
inductive GoType where
  | bigIntType
  | oidType
  | nullType
  | boolT
  | stringT
  | intT
  | uintT
  | byteT
  | structT (fields : List (GoType × String))
  | arrayT (elem : GoType) (size : Nat)
  | sliceT (elem : GoType)
  | unsupportedT

/-- An expected element (`expectedElement`): class, tag and decoder.  The
decoder is an `Option` because Go represents "no codec found" as a nil
function pointer. -/
structure expectedElement where
  cls : Nat := 0
  tag : Nat := 0
  decoder : Option decoderFunction := none

/-- An expected element for a struct field (`expectedFieldElement`).  The
Go original embeds the target `reflect.Value`; the embedding keeps its type
(`typ`), which is all `setDefaultValue` inspects. -/
structure expectedFieldElement where
  cls : Nat := 0
  tag : Nat := 0
  decoder : Option decoderFunction := none
  typ : GoType := GoType.unsupportedT
  opts : fieldOptions := {}

/-- A registered choice variant (`choiceEntry`). -/
structure choiceEntry where
  cls : Nat := 0
  tag : Nat := 0
  decoder : Option decoderFunction := none
  typ : GoType := GoType.unsupportedT
  opts : fieldOptions := {}

/-- `Choice` of `context.go`: one option available for a CHOICE element,
given as an in-memory type plus an annotation string. -/
structure Choice where
  typ : GoType
  options : String

/-- The two DER-mode flags of a `Context`. -/
structure DerFlags where
  encoding : Bool := false
  decoding : Bool := false
deriving DecidableEq, Repr

/-- The `Context` of `context.go`.  The Go `map[string][]choiceEntry` is an
association list (a key is present iff the Go map holds a non-nil slice,
which is the invariant `addChoiceEntry` maintains); the logger is dropped
(it only ever discards output in the modelled paths). -/
structure Context where
  choices : List (String × List choiceEntry) := []
  der : DerFlags := {}

/-- `SetDer` of `context.go`. -/
def SetDer (ctx : Context) (encoding decoding : Bool) : Context :=
  { ctx with der := { encoding := encoding, decoding := decoding } }

/-- `NewContext` of `context.go`: zero context, then `SetDer(true, false)`. -/
def newContext : Context :=
  SetDer { choices := [] } true false

/-- Message of `validate` for a class flag without a tag. -/
def tagMustBeSpecifiedMsg (cls : String) : String :=
  s!"\x27tag\x27 must be specified when \x27{cls}\x27 is used"

/-- Message of `validate` for a negative tag. -/
def negativeTagMsg (t : Int) : String :=
  s!"\x27tag\x27 cannot be negative: {t}"

/-- The final check of `validate`: a present `choice` must be non-empty. -/
def validateChoice (opts : fieldOptions) : Except Asn1Error Unit :=
  match opts.choice with
  | some c => if c = "" then .error (.syntaxError "\x27choice\x27 cannot be empty") else .ok ()
  | none => .ok ()

/-- `validate` of `options.go`: rejects option records violating the four
invariants. -/
def validate (_ctx : Context) (opts : fieldOptions) : Except Asn1Error Unit :=
  if opts.universal = true ∧ opts.tag = none then
    .error (.syntaxError (tagMustBeSpecifiedMsg "universal"))
  else if opts.application = true ∧ opts.tag = none then
    .error (.syntaxError (tagMustBeSpecifiedMsg "application"))
  else
    match opts.tag with
    | some t =>
      if t < 0 then .error (.syntaxError (negativeTagMsg t))
      else validateChoice opts
    | none => validateChoice opts

/-- Go's `strconv.Atoi`: optional sign, then one or more decimal digits and
nothing else; values outside the 64-bit signed range are errors. -/
def goAtoi (s : String) : Option Int :=
  match s.toList with
  | [] => none
  | c :: rest =>
    let signDigits : Bool × List Char :=
      if c = '-' then (true, rest) else if c = '+' then (false, rest) else (false, c :: rest)
    let neg := signDigits.1
    let digits := signDigits.2
    if digits = [] then none
    else if digits.all Char.isDigit then
      let n : Nat := digits.foldl (fun acc d => acc * 10 + (d.toNat - 48)) 0
      let v : Int := if neg then -(n : Int) else (n : Int)
      if -(2 ^ 63) ≤ v ∧ v < 2 ^ 63 then some v else none
    else none

/-- Message of `parseBoolOption` / `parseIntOption` / `parseStringOption`
(kept as the Go format string; `parseIntOption` and `parseStringOption`
pass no argument for the `%s` verb). -/
def noArgumentsMsg (name : String) : String :=
  s!"option \x27{name}\x27 does not have arguments."

/-- `parseBoolOption` of `options.go`. -/
def parseBoolOption (_ctx : Context) (args : List String) : Except Asn1Error Bool :=
  if args.length > 1 then .error (.syntaxError (noArgumentsMsg (args.headD "")))
  else .ok true

/-- `parseIntOption` of `options.go`. -/
def parseIntOption (_ctx : Context) (args : List String) : Except Asn1Error (Option Int) :=
  if args.length ≠ 2 then .error (.syntaxError (noArgumentsMsg "%!s(MISSING)"))
  else
    match goAtoi (args.getD 1 "") with
    | none =>
      let v := args.getD 1 ""
      let n := args.headD ""
      .error (.syntaxError s!"invalid value \x27{v}\x27 for option \x27{n}\x27.")
    | some num => .ok (some num)

/-- Go's `unicode.IsSpace` restricted to ASCII (annotation strings are
ASCII). -/
def isGoSpace (c : Char) : Bool :=
  c = ' ' || c = '\t' || c = '\n' || c = '\x0b' || c = '\x0c' || c = '\r'

/-- Go's `strings.TrimSpace`. -/
def goTrim (s : String) : String :=
  String.mk (((s.toList.dropWhile isGoSpace).reverse.dropWhile isGoSpace).reverse)

/-- Go's `strings.Split` on a one-character separator (the library only
splits on `","` and `":"`), on character lists. -/
def goSplitChars (sep : Char) : List Char → List (List Char)
  | [] => [[]]
  | c :: rest =>
    let r := goSplitChars sep rest
    if c = sep then [] :: r
    else
      match r with
      | [] => [[c]]
      | g :: gs => (c :: g) :: gs

/-- Go's `strings.Split` on a one-character separator. -/
def goSplit (s : String) (sep : Char) : List String :=
  (goSplitChars sep s.toList).map String.mk

/-- `parseStringOption` of `options.go`. -/
def parseStringOption (_ctx : Context) (args : List String) : Except Asn1Error (Option String) :=
  if args.length ≠ 2 then .error (.syntaxError (noArgumentsMsg "%!s(MISSING)"))
  else .ok (some (args.getD 1 ""))

/-- `parseOption` of `options.go`: dispatch on the option name. -/
def parseOption (ctx : Context) (opts : fieldOptions) (args : List String) :
    Except Asn1Error fieldOptions :=
  match args.headD "" with
  | "" => .ok opts
  | "universal" =>
    match parseBoolOption ctx args with
    | .error e => .error e
    | .ok b => .ok { opts with universal := b }
  | "application" =>
    match parseBoolOption ctx args with
    | .error e => .error e
    | .ok b => .ok { opts with application := b }
  | "explicit" =>
    match parseBoolOption ctx args with
    | .error e => .error e
    | .ok b => .ok { opts with explicit := b }
  | "indefinite" =>
    match parseBoolOption ctx args with
    | .error e => .error e
    | .ok b => .ok { opts with indefinite := b }
  | "optional" =>
    match parseBoolOption ctx args with
    | .error e => .error e
    | .ok b => .ok { opts with optional := b }
  | "set" =>
    match parseBoolOption ctx args with
    | .error e => .error e
    | .ok b => .ok { opts with set := b }
  | "tag" =>
    match parseIntOption ctx args with
    | .error e => .error e
    | .ok t => .ok { opts with tag := t }
  | "default" =>
    match parseIntOption ctx args with
    | .error e => .error e
    | .ok d => .ok { opts with defaultValue := d }
  | "choice" =>
    match parseStringOption ctx args with
    | .error e => .error e
    | .ok c => .ok { opts with choice := c }
  | name => .error (.syntaxError s!"Invalid option: {name}")

/-- The token loop of `parseOptions`. -/
def parseOptionsLoop (ctx : Context) (opts : fieldOptions) :
    List String → Except Asn1Error fieldOptions
  | [] => .ok opts
  | token :: rest =>
    match parseOption ctx opts (goSplit (goTrim token) ':') with
    | .error e => .error e
    | .ok opts2 => parseOptionsLoop ctx opts2 rest

/-- `parseOptions` of `options.go`: split the annotation on commas, fold
`parseOption` over the tokens, then `validate`. -/
def parseOptions (ctx : Context) (s : String) : Except Asn1Error fieldOptions :=
  match parseOptionsLoop ctx {} (goSplit s ',') with
  | .error e => .error e
  | .ok opts =>
    match validate ctx opts with
    | .error e => .error e
    | .ok _ => .ok opts

/-- Lookup in the choice registry (the Go `ctx.choices[choice]` map read;
`none` embeds a nil slice). -/
def choicesGet (l : List (String × List choiceEntry)) (k : String) :
    Option (List choiceEntry) :=
  (l.find? fun p => p.1 == k).map Prod.snd

/-- Append an entry to the registry under a key (the Go
`this.choices[choice] = append(this.choices[choice], entry)`). -/
def choicesAdd (l : List (String × List choiceEntry)) (k : String) (e : choiceEntry) :
    List (String × List choiceEntry) :=
  match choicesGet l k with
  | none => l ++ [(k, [e])]
  | some _ => l.map fun p => if p.1 == k then (p.1, p.2 ++ [e]) else p

/-- `getChoices` of `context.go`. -/
def getChoices (ctx : Context) (choice : String) : Except Asn1Error (List choiceEntry) :=
  match choicesGet ctx.choices choice with
  | none => .error (.syntaxError s!"Invalid choice \"{choice}\"")
  | some entries => .ok entries

/-- `getChoiceByTag` of `context.go`: first entry with the given class and
tag. -/
def getChoiceByTag (ctx : Context) (choice : String) (cls tag : Nat) :
    Except Asn1Error choiceEntry :=
  match getChoices ctx choice with
  | .error e => .error e
  | .ok entries =>
    match entries.find? (fun cur => cur.cls == cls && cur.tag == tag) with
    | some entry => .ok entry
    | none => .error (.syntaxError s!"Invalid tag [{cls},{tag}] for choice \"{choice}\"")

/-- Message of `addChoiceEntry` for a duplicate registration (built by
`fmt.Errorf`, hence a plain Go error, not a `SyntaxError`). -/
def choiceAlreadyRegisteredMsg (choice : String) (cls tag : Nat) : String :=
  s!"Choice already registered: {choice}\x7b{cls}, {tag}\x7d"

/-- `addChoiceEntry` of `context.go`.  Note the duplicate error is a plain
`fmt.Errorf` error. -/
def addChoiceEntry (ctx : Context) (choice : String) (entry : choiceEntry) :
    Except Asn1Error Context :=
  let current := (choicesGet ctx.choices choice).getD []
  if current.any (fun cur => cur.cls == entry.cls && cur.tag == entry.tag) then
    .error (.goError (choiceAlreadyRegisteredMsg choice entry.cls entry.tag))
  else .ok { ctx with choices := choicesAdd ctx.choices choice entry }

/-- `setDefaultValue` of `asn1.go`: setting a default is only possible on
(signed or unsigned) integer kinds; every other kind is a `SyntaxError`
(message kept verbatim, including the typo). -/
def setDefaultValue (_ctx : Context) (typ : GoType) (_opts : fieldOptions) :
    Except Asn1Error Unit :=
  match typ with
  | .intT => .ok ()
  | .uintT => .ok ()
  | .byteT => .ok ()
  | _ => .error (.syntaxError "Default value is only allow to integers")

/-- Modelled from the spec: the comparator of `expectedFieldElementSlice`
(its `Less` method is not among the available sources); the spec orders
expected elements "by (class, tag) ascending". -/
def fieldLE (a b : expectedFieldElement) : Prop :=
  a.cls < b.cls ∨ (a.cls = b.cls ∧ a.tag ≤ b.tag)

/-- Modelled from the spec: the comparator of `rawValueSlice` (not among
the available sources); the spec orders raw values "by (class, tag)". -/
def rawLE (a b : RawValue) : Prop :=
  a.Class < b.Class ∨ (a.Class = b.Class ∧ a.Tag ≤ b.Tag)

instance : DecidableRel fieldLE := fun a b => by unfold fieldLE; infer_instance

instance : DecidableRel rawLE := fun a b => by unfold rawLE; infer_instance

instance : IsTotal expectedFieldElement fieldLE where
  total a b := by
    unfold fieldLE
    rcases Nat.lt_trichotomy a.cls b.cls with h | h | h
    · exact Or.inl (Or.inl h)
    · rcases Nat.le_total a.tag b.tag with ht | ht
      · exact Or.inl (Or.inr ⟨h, ht⟩)
      · exact Or.inr (Or.inr ⟨h.symm, ht⟩)
    · exact Or.inr (Or.inl h)

instance : IsTrans expectedFieldElement fieldLE where
  trans a b c hab hbc := by
    unfold fieldLE at *
    rcases hab with h | ⟨he, ht⟩ <;> rcases hbc with h2 | ⟨he2, ht2⟩
    · exact Or.inl (h.trans h2)
    · exact Or.inl (he2 ▸ h)
    · exact Or.inl (he ▸ h2)
    · exact Or.inr ⟨he.trans he2, ht.trans ht2⟩

instance : IsTotal RawValue rawLE where
  total a b := by
    unfold rawLE
    rcases Nat.lt_trichotomy a.Class b.Class with h | h | h
    · exact Or.inl (Or.inl h)
    · rcases Nat.le_total a.Tag b.Tag with ht | ht
      · exact Or.inl (Or.inr ⟨h, ht⟩)
      · exact Or.inr (Or.inr ⟨h.symm, ht⟩)
    · exact Or.inr (Or.inl h)

instance : IsTrans RawValue rawLE where
  trans a b c hab hbc := by
    unfold rawLE at *
    rcases hab with h | ⟨he, ht⟩ <;> rcases hbc with h2 | ⟨he2, ht2⟩
    · exact Or.inl (h.trans h2)
    · exact Or.inl (he2 ▸ h)
    · exact Or.inl (he ▸ h2)
    · exact Or.inr ⟨he.trans he2, ht.trans ht2⟩

/-- Modelled from the spec: `decodeBool` (BOOLEAN codec, not among the
available sources).  Any single content octet decodes in BER. -/
def decodeBool : decoderFunction := fun data =>
  if data.length = 1 then .ok () else .error (.parseError "invalid boolean length")

/-- Modelled from the spec: `decodeInt` / native INTEGER decoding (not
among the available sources).  "Integer decoders reject zero-length
content and reject encodings exceeding the target width." -/
def decodeInt : decoderFunction := fun data =>
  if data.length = 0 then .error (.parseError "invalid integer length")
  else if data.length > 8 then .error (.parseError "integer out of range")
  else .ok ()

/-- Modelled from the spec: `decodeUint` (as `decodeInt`, unsigned). -/
def decodeUint : decoderFunction := fun data =>
  if data.length = 0 then .error (.parseError "invalid integer length")
  else if data.length > 8 then .error (.parseError "integer out of range")
  else .ok ()

/-- Modelled from the spec: `decodeBigInt` (arbitrary precision INTEGER;
rejects zero-length content). -/
def decodeBigInt : decoderFunction := fun data =>
  if data.length = 0 then .error (.parseError "invalid integer length") else .ok ()

/-- Modelled from the spec: `decodeString` — "String decoding maps to a
raw byte sequence (no character-set validation)", so it always succeeds. -/
def decodeString : decoderFunction := fun _ => .ok ()

/-- Modelled from the spec: `decodeOctetString` into a byte array/slice. -/
def decodeOctetString : decoderFunction := fun _ => .ok ()

/-- Modelled from the spec: `decodeNull` — "length must be 0". -/
def decodeNull : decoderFunction := fun data =>
  if data.length = 0 then .ok () else .error (.parseError "invalid null length")

/-- Modelled from the spec: one step of OID arc reading — arcs are base-128
with MSB continuation, a continuation that never terminates is an error. -/
def oidArcsOk : List Nat → Bool
  | [] => true
  | [b] => b < 128
  | _ :: rest => oidArcsOk rest

/-- Modelled from the spec: `decodeOid` — at least one content octet and
well-terminated base-128 arcs. -/
def decodeOid : decoderFunction := fun data =>
  if data.length = 0 then .error (.parseError "invalid oid length")
  else if oidArcsOk data then .ok () else .error (.parseError "invalid oid arc")

/-- Invalidation of the remaining siblings of a matched choice group in
`matchExpectedValues` ("Using nil decoder to skip matched choices"): when
the matched element's `choice` is set, every later element of the same
group loses its decoder. -/
def invalidateSiblings (choice : Option String) (l : List expectedFieldElement) :
    List expectedFieldElement :=
  match choice with
  | none => l
  | some name =>
    l.map fun x => if x.opts.choice = some name then { x with decoder := none } else x

theorem invalidateSiblings_length (choice : Option String) (l : List expectedFieldElement) :
    (invalidateSiblings choice l).length = l.length := by
  unfold invalidateSiblings
  cases choice <;> simp

/-- Message of `matchExpectedValues` for a missing mandatory element. -/
def missingValueMsg (cls tag : Nat) : String :=
  s!"Missing value for [{cls} {tag}]"

/-- The loop of `matchExpectedValues`, made structurally recursive on the
length of the expected-element list (sibling invalidation rewrites the
tail without changing its length, so the bound is exact and the
`outOfFuel` branch is unreachable from `matchExpectedValues`). -/
def matchExpectedValuesLoop (ctx : Context) :
    Nat → List expectedFieldElement → List RawValue → Except Asn1Error Unit
  | _, [], _ => .ok ()
  | 0, _ :: _, _ => .error .outOfFuel
  | n + 1, e :: evs, rValues =>
    match e.decoder with
    | none => matchExpectedValuesLoop ctx n evs rValues
    | some d =>
      match rValues with
      | raw :: rs =>
        if e.cls = raw.Class ∧ e.tag = raw.Tag then
          match d raw.Content with
          | .error err => .error err
          | .ok _ => matchExpectedValuesLoop ctx n (invalidateSiblings e.opts.choice evs) rs
        else
          if e.opts.optional || e.opts.choice.isSome then
            matchExpectedValuesLoop ctx n evs rValues
          else
            match e.opts.defaultValue with
            | some _ =>
              match setDefaultValue ctx e.typ e.opts with
              | .error err => .error err
              | .ok _ => matchExpectedValuesLoop ctx n evs rValues
            | none => .error (.parseError (missingValueMsg e.cls e.tag))
      | [] =>
        if e.opts.optional || e.opts.choice.isSome then
          matchExpectedValuesLoop ctx n evs rValues
        else
          match e.opts.defaultValue with
          | some _ =>
            match setDefaultValue ctx e.typ e.opts with
            | .error err => .error err
            | .ok _ => matchExpectedValuesLoop ctx n evs rValues
          | none => .error (.parseError (missingValueMsg e.cls e.tag))

/-- `matchExpectedValues` of `decode.go`: scan the expected elements in
order against the raw values with a single advancing raw index (the raw
index is represented by the remaining suffix of the raw-value list). -/
def matchExpectedValues (ctx : Context) (eValues : List expectedFieldElement)
    (rValues : List RawValue) : Except Asn1Error Unit :=
  matchExpectedValuesLoop ctx eValues.length eValues rValues

/-- The adjacent-duplicate scan of `decodeStructAsSet` ("Check duplicated
tags"): returns the (class, tag) of the first element equal to its
predecessor in the sorted expected list. -/
def checkDuplicates : List expectedFieldElement → Option (Nat × Nat)
  | a :: b :: rest =>
    if a.cls = b.cls ∧ a.tag = b.tag then some (b.cls, b.tag)
    else checkDuplicates (b :: rest)
  | _ => none

/-- Message of `decodeStructAsSet` for duplicated expected tags. -/
def duplicatedTagMsg (cls tag : Nat) : String :=
  s!"Duplicated tag ({cls},{tag})"

/-- Message of `decode` for a class/tag mismatch. -/
def expectedTagMsg (ecls etag rcls rtag : Nat) : String :=
  s!"Expected tag ({ecls},{etag}) but found ({rcls},{rtag})"

/-- Modelled from the spec: base-128 tag-number bytes with MSB
continuation; `none` when the continuation never terminates before EOF. -/
def readBase128 (acc : Nat) : List Nat → Option (Nat × List Nat)
  | [] => none
  | b :: rest =>
    if b < 128 then some (acc * 128 + b, rest)
    else readBase128 (acc * 128 + (b - 128)) rest

/-- Modelled from the spec: long-form tag number; a leading `0x00` byte is
rejected as non-minimal. -/
def readLongTag (data : List Nat) : Option (Nat × List Nat) :=
  match data with
  | [] => none
  | b :: _ => if b = 0 then none else readBase128 0 data

/-- Big-endian byte concatenation for long-form lengths. -/
def bytesToNat (l : List Nat) : Nat :=
  l.foldl (fun acc b => acc * 256 + b) 0

/-- A parsed length octet sequence: definite length or indefinite form. -/
inductive LengthForm where
  | definite (n : Nat)
  | indefinite

/-- Modelled from the spec: length octets — short form below `0x80`,
indefinite form for `0x80`, and `0x80 | n` introducing `n` big-endian
length bytes. -/
def readLength (data : List Nat) : Option (LengthForm × List Nat) :=
  match data with
  | [] => none
  | l :: rest =>
    if l < 128 then some (.definite l, rest)
    else if l = 128 then some (.indefinite, rest)
    else
      let n := l - 128
      if rest.length < n then none
      else some (.definite (bytesToNat (rest.take n)), rest.drop n)

mutual

/-- Modelled from the spec: `decodeRawValue`, the raw-TLV reader (not among
the available sources).  Identifier octet = class in the top two bits,
constructed flag in bit 5, tag in the low five bits with long form for
`0b11111`; then length octets; then the content octets (for the indefinite
form, the concatenated child TLVs up to the terminating `00 00`). -/
def decodeRawValue (fuel : Nat) (data : List Nat) :
    Except Asn1Error (RawValue × List Nat) :=
  match fuel with
  | 0 => .error .outOfFuel
  | fuel + 1 =>
    match data with
    | [] => .error (.parseError "truncated input")
    | b :: rest =>
      let cls := b / 64
      let constructed : Bool := (b / 32) % 2 == 1
      let tagbits := b % 32
      match (if tagbits < 31 then some (tagbits, rest) else readLongTag rest) with
      | none => .error (.parseError "malformed tag")
      | some (tag, rest2) =>
        match readLength rest2 with
        | none => .error (.parseError "truncated input")
        | some (.definite n, rest3) =>
          if rest3.length < n then .error (.parseError "truncated input")
          else
            .ok ({ Class := cls, Tag := tag, Constructed := constructed,
                   Indefinite := false, Content := rest3.take n }, rest3.drop n)
        | some (.indefinite, rest3) =>
          match readIndefiniteContent fuel rest3 with
          | .error e => .error e
          | .ok (content, final) =>
            .ok ({ Class := cls, Tag := tag, Constructed := constructed,
                   Indefinite := true, Content := content }, final)

/-- Modelled from the spec: reading indefinite-form content — child TLVs up
to (but excluding) the terminating end-of-contents `00 00`. -/
def readIndefiniteContent (fuel : Nat) (data : List Nat) :
    Except Asn1Error (List Nat × List Nat) :=
  match fuel with
  | 0 => .error .outOfFuel
  | fuel + 1 =>
    match data with
    | 0 :: 0 :: rest => .ok ([], rest)
    | _ =>
      match decodeRawValue fuel data with
      | .error e => .error e
      | .ok (_, rest) =>
        match readIndefiniteContent fuel rest with
        | .error e => .error e
        | .ok (content, final) =>
          .ok (data.take (data.length - rest.length) ++ content, final)

/-- `decode` of `decode.go`, split as in the source into the raw-value
read and the remainder of the body (`decodePostRaw` below). -/
def decode (fuel : Nat) (ctx : Context) (data : List Nat) (typ : GoType)
    (opts : fieldOptions) : Except Asn1Error (List Nat) :=
  match fuel with
  | 0 => .error .outOfFuel
  | fuel + 1 =>
    match decodeRawValue fuel data with
    | .error e => .error e
    | .ok (raw, rest) =>
      match decodePostRaw fuel ctx raw typ opts with
      | .error e => .error e
      | .ok _ => .ok rest

/-- The body of `decode` after `decodeRawValue`: the DER indefinite-length
check, the expected-element resolution, the class/tag match and the codec
invocation. -/
def decodePostRaw (fuel : Nat) (ctx : Context) (raw : RawValue) (typ : GoType)
    (opts : fieldOptions) : Except Asn1Error Unit :=
  match fuel with
  | 0 => .error .outOfFuel
  | fuel + 1 =>
    if ctx.der.decoding && raw.Indefinite then
      .error (.parseError "Indefinite length form is not supported by DER mode")
    else
      match getExpectedElement fuel ctx raw typ opts with
      | .error e => .error e
      | .ok elem =>
        if raw.Class ≠ elem.cls ∨ raw.Tag ≠ elem.tag then
          .error (.parseError (expectedTagMsg elem.cls elem.tag raw.Class raw.Tag))
        else
          match elem.decoder with
          | some d => d raw.Content
          | none => .error (.goError "nil decoder")

/-- `getExpectedElement` of `decode.go`.  `raw` is only used as a hint when
decoding choices.  The explicit-wrapper closure forwards a cleaned option
record instead of mutating the shared one (the Go mutation only clears
flags every wrapper clears again, so this is observationally the same). -/
def getExpectedElement (fuel : Nat) (ctx : Context) (raw : RawValue) (typ : GoType)
    (opts : fieldOptions) : Except Asn1Error expectedElement :=
  match fuel with
  | 0 => .error .outOfFuel
  | fuel + 1 =>
    match getUniversalTag fuel ctx typ opts with
    | .error e => .error e
    | .ok elem0 =>
      let elem1 :=
        match opts.tag with
        | some t => { elem0 with cls := ClassContextSpecific, tag := t.toNat }
        | none => elem0
      let elem2 := if opts.universal then { elem1 with cls := ClassUniversal } else elem1
      let elem3 := if opts.application then { elem2 with cls := ClassApplication } else elem2
      if opts.explicit then
        .ok { elem3 with decoder := some (fun data =>
          let opts2 : fieldOptions :=
            { opts with explicit := false, tag := none, application := false }
          match decode fuel ctx data typ opts2 with
          | .error e => .error e
          | .ok _ => .ok ()) }
      else
        match opts.choice with
        | some ch =>
          match getChoiceByTag ctx ch raw.Class raw.Tag with
          | .error e => .error e
          | .ok entry =>
            .ok { cls := raw.Class, tag := raw.Tag,
                  decoder := some (fun data =>
                    match entry.decoder with
                    | some d => d data
                    | none => .error (.goError "nil decoder")) }
        | none =>
          match elem3.decoder with
          | some _ => .ok elem3
          | none => .error (.parseError "Go type not supported")

/-- `getUniversalTag` of `decode.go`: map an in-memory type to its
universal class/tag and codec, then apply the `set` option. -/
def getUniversalTag (fuel : Nat) (ctx : Context) (typ : GoType) (opts : fieldOptions) :
    Except Asn1Error expectedElement :=
  match fuel with
  | 0 => .error .outOfFuel
  | fuel + 1 =>
    let elem : expectedElement :=
      match typ with
      | .bigIntType => { cls := ClassUniversal, tag := TagInteger, decoder := some decodeBigInt }
      | .oidType => { cls := ClassUniversal, tag := TagOid, decoder := some decodeOid }
      | .nullType => { cls := ClassUniversal, tag := TagNull, decoder := some decodeNull }
      | .boolT => { cls := ClassUniversal, tag := TagBoolean, decoder := some decodeBool }
      | .stringT => { cls := ClassUniversal, tag := TagOctetString, decoder := some decodeString }
      | .intT => { cls := ClassUniversal, tag := TagInteger, decoder := some decodeInt }
      | .uintT => { cls := ClassUniversal, tag := TagInteger, decoder := some decodeUint }
      | .byteT => { cls := ClassUniversal, tag := TagInteger, decoder := some decodeUint }
      | .structT fields =>
        { cls := ClassUniversal, tag := TagSequence,
          decoder := some (if opts.set then fun data => decodeStructAsSet fuel ctx fields data
                           else fun data => decodeStruct fuel ctx fields data) }
      | .arrayT elemT n =>
        match elemT with
        | .byteT => { cls := ClassUniversal, tag := TagOctetString, decoder := some decodeOctetString }
        | _ =>
          { cls := ClassUniversal, tag := TagSequence,
            decoder := some (fun data => decodeArray fuel ctx elemT n data) }
      | .sliceT elemT =>
        match elemT with
        | .byteT => { cls := ClassUniversal, tag := TagOctetString, decoder := some decodeOctetString }
        | _ =>
          { cls := ClassUniversal, tag := TagSequence,
            decoder := some (fun data => decodeSlice fuel ctx elemT data) }
      | .unsupportedT => { cls := ClassUniversal, tag := 0, decoder := none }
    if opts.set then
      if elem.tag ≠ TagSequence then
        .error (.syntaxError "Flag \"set\" can\x27t be set to Go type")
      else .ok { elem with tag := TagSet }
    else .ok elem

/-- `getExpectedFieldElements` of `decode.go`: per-field option parsing and
element resolution, expanding choice fields into one pseudo-element per
registered alternative.  (The Go `value.CanSet()` guard is true on the
decoding paths modelled here, where the target is always settable.) -/
def getExpectedFieldElements (fuel : Nat) (ctx : Context)
    (fields : List (GoType × String)) : Except Asn1Error (List expectedFieldElement) :=
  match fuel with
  | 0 => .error .outOfFuel
  | fuel + 1 =>
    match fields with
    | [] => .ok []
    | (ftyp, ftag) :: rest =>
      match parseOptions ctx ftag with
      | .error e => .error e
      | .ok opts =>
        match opts.choice with
        | none =>
          match getExpectedElement fuel ctx {} ftyp opts with
          | .error e => .error e
          | .ok elem =>
            match getExpectedFieldElements fuel ctx rest with
            | .error e => .error e
            | .ok evs =>
              .ok ({ cls := elem.cls, tag := elem.tag, decoder := elem.decoder,
                     typ := ftyp, opts := opts } :: evs)
        | some ch =>
          match getChoices ctx ch with
          | .error e => .error e
          | .ok entries =>
            match expandChoice fuel ctx entries ftyp opts with
            | .error e => .error e
            | .ok elems =>
              match getExpectedFieldElements fuel ctx rest with
              | .error e => .error e
              | .ok evs => .ok (elems ++ evs)

/-- The choice-expansion loop of `getExpectedFieldElements`: resolve the
field once per registered entry, with the entry's class/tag as the raw
hint. -/
def expandChoice (fuel : Nat) (ctx : Context) (entries : List choiceEntry)
    (ftyp : GoType) (opts : fieldOptions) : Except Asn1Error (List expectedFieldElement) :=
  match fuel with
  | 0 => .error .outOfFuel
  | fuel + 1 =>
    match entries with
    | [] => .ok []
    | entry :: rest =>
      match getExpectedElement fuel ctx { Class := entry.cls, Tag := entry.tag } ftyp opts with
      | .error e => .error e
      | .ok elem =>
        match expandChoice fuel ctx rest ftyp opts with
        | .error e => .error e
        | .ok elems =>
          .ok ({ cls := elem.cls, tag := elem.tag, decoder := elem.decoder,
                 typ := ftyp, opts := opts } :: elems)

/-- `getRawValuesFromBytes` of `decode.go`: read up to `max` raw values;
return them as soon as the buffer is exhausted, and fail with
`Too many items` when `max` values did not consume the whole buffer (note
that for `max = 0` this fails even on empty content, since the Go loop
body never runs). -/
def getRawValuesFromBytes (fuel : Nat) (ctx : Context) (data : List Nat) (max : Nat) :
    Except Asn1Error (List RawValue) :=
  match fuel with
  | 0 => .error .outOfFuel
  | fuel + 1 =>
    match max with
    | 0 => .error (.parseError "Too many items for Sequence.")
    | m + 1 =>
      match decodeRawValue fuel data with
      | .error e => .error e
      | .ok (raw, rest) =>
        if rest.isEmpty then .ok [raw]
        else
          match getRawValuesFromBytes fuel ctx rest m with
          | .error e => .error e
          | .ok raws => .ok (raw :: raws)

/-- `decodeStruct` of `decode.go`: SEQUENCE decoding of a struct. -/
def decodeStruct (fuel : Nat) (ctx : Context) (fields : List (GoType × String))
    (data : List Nat) : Except Asn1Error Unit :=
  match fuel with
  | 0 => .error .outOfFuel
  | fuel + 1 =>
    match getExpectedFieldElements fuel ctx fields with
    | .error e => .error e
    | .ok evs =>
      match getRawValuesFromBytes fuel ctx data evs.length with
      | .error e => .error e
      | .ok rvs => matchExpectedValues ctx evs rvs

/-- `decodeStructAsSet` of `decode.go`: sort the expected elements, reject
duplicated tags, read the raw values, and sort them as well unless DER
decoding is in force. -/
def decodeStructAsSet (fuel : Nat) (ctx : Context) (fields : List (GoType × String))
    (data : List Nat) : Except Asn1Error Unit :=
  match fuel with
  | 0 => .error .outOfFuel
  | fuel + 1 =>
    match getExpectedFieldElements fuel ctx fields with
    | .error e => .error e
    | .ok evs =>
      let sortedEvs := List.insertionSort fieldLE evs
      match checkDuplicates sortedEvs with
      | some ct => .error (.syntaxError (duplicatedTagMsg ct.1 ct.2))
      | none =>
        match getRawValuesFromBytes fuel ctx data sortedEvs.length with
        | .error e => .error e
        | .ok rvs =>
          matchExpectedValues ctx sortedEvs
            (if ctx.der.decoding then rvs else List.insertionSort rawLE rvs)

/-- `decodeSlice` of `decode.go`: SEQUENCE/SET OF into a slice. -/
def decodeSlice (fuel : Nat) (ctx : Context) (elemT : GoType) (data : List Nat) :
    Except Asn1Error Unit :=
  match fuel with
  | 0 => .error .outOfFuel
  | fuel + 1 =>
    match data with
    | [] => .ok ()
    | _ =>
      match ctxDecodeWithOptions fuel ctx data elemT "" with
      | .error e => .error e
      | .ok rest => decodeSlice fuel ctx elemT rest

/-- `decodeArray` of `decode.go`: SEQUENCE/SET OF into an array of the
given length. -/
def decodeArray (fuel : Nat) (ctx : Context) (elemT : GoType) (size : Nat)
    (data : List Nat) : Except Asn1Error Unit :=
  match fuel with
  | 0 => .error .outOfFuel
  | fuel + 1 =>
    match size with
    | 0 => if data.isEmpty then .ok () else .error (.parseError "Too many elements.")
    | n + 1 =>
      if data.isEmpty then .error (.parseError "Missing elements.")
      else
        match ctxDecodeWithOptions fuel ctx data elemT "" with
        | .error e => .error e
        | .ok rest => decodeArray fuel ctx elemT n rest

/-- `DecodeWithOptions` of `decode.go` (the target is assumed settable; the
read-only `SyntaxError` path concerns only non-pointer targets, which the
embedding does not represent). -/
def ctxDecodeWithOptions (fuel : Nat) (ctx : Context) (data : List Nat) (typ : GoType)
    (options : String) : Except Asn1Error (List Nat) :=
  match fuel with
  | 0 => .error .outOfFuel
  | fuel + 1 =>
    match parseOptions ctx options with
    | .error e => .error e
    | .ok opts => decode fuel ctx data typ opts

end

/-- `Decode` of `decode.go` (the `Context` method): decode without an
option string. -/
def ctxDecode (fuel : Nat) (ctx : Context) (data : List Nat) (typ : GoType) :
    Except Asn1Error (List Nat) :=
  ctxDecodeWithOptions fuel ctx data typ ""

/-- `AddChoice` of `context.go`: parse each variant's options, reject
nested choices, resolve the expected element, and register it.  Go mutates
the context and returns only an error; the embedding returns the (possibly
partially extended) context together with the error. -/
def AddChoice (fuel : Nat) (ctx : Context) (choice : String) (entries : List Choice) :
    Context × Option Asn1Error :=
  match entries with
  | [] => (ctx, none)
  | e :: rest =>
    match parseOptions ctx e.options with
    | .error err => (ctx, some err)
    | .ok opts =>
      match opts.choice with
      | some nested =>
        (ctx, some (.syntaxError s!"nested choices are not allowed: \"{nested}\" inside \"{choice}\"."))
      | none =>
        match getExpectedElement fuel ctx {} e.typ opts with
        | .error err => (ctx, some err)
        | .ok elem =>
          match addChoiceEntry ctx choice
              { cls := elem.cls, tag := elem.tag, decoder := elem.decoder,
                typ := e.typ, opts := opts } with
          | .error err => (ctx, some err)
          | .ok ctx2 => AddChoice fuel ctx2 choice rest

/-- The package-level `Decode` facade of `asn1.go`: a fresh default context
for each call. -/
def Decode (fuel : Nat) (data : List Nat) (typ : GoType) : Except Asn1Error (List Nat) :=
  ctxDecodeWithOptions fuel newContext data typ ""

/-- The package-level `DecodeWithOptions` facade of `asn1.go`. -/
def DecodeWithOptions (fuel : Nat) (data : List Nat) (typ : GoType) (options : String) :
    Except Asn1Error (List Nat) :=
  ctxDecodeWithOptions fuel newContext data typ options

/-- The four validation invariants of the option record (spec §3). -/
def optionsInvariant (opts : fieldOptions) : Prop :=
  (opts.universal = true → opts.tag ≠ none) ∧
  (opts.application = true → opts.tag ≠ none) ∧
  (∀ t, opts.tag = some t → 0 ≤ t) ∧
  (∀ c, opts.choice = some c → c ≠ "")

/-- The integer kinds of the reflection switch in `setDefaultValue`. -/
def isIntegerKind : GoType → Bool
  | .intT => true
  | .uintT => true
  | .byteT => true
  | _ => false

/-- Concrete inputs for the C1 witness: a mandatory universal INTEGER
element and a matching raw TLV. -/
def c1elem : expectedFieldElement :=
  { cls := ClassUniversal, tag := TagInteger, decoder := some decodeInt,
    typ := GoType.intT, opts := {} }

def c1raw : RawValue :=
  { Class := ClassUniversal, Tag := TagInteger, Content := [7] }

/-- Concrete context for the C4 counterexample: the choice "x" holds one
variant resolving to (Universal, INTEGER). -/
def c4ctx : Context := (AddChoice 30 newContext "x" [⟨GoType.intT, ""⟩]).1

def c4raw : RawValue := { Class := ClassUniversal, Tag := TagInteger }

def c4opts : fieldOptions := { tag := some 5, choice := some "x" }

/-- The element resolved for a plain `tag:5` annotation on an `int` field. -/
def c4welem : expectedElement :=
  { cls := ClassContextSpecific, tag := 5, decoder := some decodeInt }

/-- The context after registering the single `int` variant under "x". -/
def c5ctx1 : Context := (AddChoice 30 newContext "x" [⟨GoType.intT, ""⟩]).1

/-- The entry that registration stores for an `int` variant with an empty
annotation. -/
def c5entry : choiceEntry :=
  { cls := ClassUniversal, tag := TagInteger, decoder := some decodeInt,
    typ := GoType.intT, opts := {} }

/-- The expected element that `getExpectedFieldElements` produces for a
plain `int` field with an empty annotation. -/
def c6elem : expectedFieldElement :=
  { cls := ClassUniversal, tag := TagInteger, decoder := some decodeInt,
    typ := GoType.intT, opts := {} }

/-- The expected element for a `string` field annotated `default:5`. -/
def c7elem : expectedFieldElement :=
  { cls := ClassUniversal, tag := TagOctetString, decoder := some decodeString,
    typ := GoType.stringT, opts := { defaultValue := some 5 } }

/-! ## Option-record validation (C3) -/

theorem parseBoolOption_syntax {ctx : Context} {args : List String} {e : Asn1Error}
    (h : parseBoolOption ctx args = .error e) : ∃ m, e = .syntaxError m := by
  unfold parseBoolOption at h
  split at h
  · injection h with h2
    exact ⟨_, h2.symm⟩
  · cases h

theorem parseIntOption_syntax {ctx : Context} {args : List String} {e : Asn1Error}
    (h : parseIntOption ctx args = .error e) : ∃ m, e = .syntaxError m := by
  unfold parseIntOption at h
  split at h
  · injection h with h2
    exact ⟨_, h2.symm⟩
  · split at h
    · injection h with h2
      exact ⟨_, h2.symm⟩
    · cases h

theorem parseStringOption_syntax {ctx : Context} {args : List String} {e : Asn1Error}
    (h : parseStringOption ctx args = .error e) : ∃ m, e = .syntaxError m := by
  unfold parseStringOption at h
  split at h
  · injection h with h2
    exact ⟨_, h2.symm⟩
  · cases h

theorem parseOption_syntax {ctx : Context} {opts : fieldOptions} {args : List String}
    {e : Asn1Error} (h : parseOption ctx opts args = .error e) : ∃ m, e = .syntaxError m := by
  unfold parseOption at h
  split at h
  · cases h
  all_goals
    first
    | (injection h with h2; exact ⟨_, h2.symm⟩)
    | (split at h
       · (injection h with h2
          subst h2
          first
          | exact parseBoolOption_syntax (by assumption)
          | exact parseIntOption_syntax (by assumption)
          | exact parseStringOption_syntax (by assumption))
       · cases h)

theorem parseOptionsLoop_syntax {ctx : Context} {e : Asn1Error} :
    ∀ (tokens : List String) (opts : fieldOptions),
      parseOptionsLoop ctx opts tokens = .error e → ∃ m, e = .syntaxError m := by
  intro tokens
  induction tokens with
  | nil => intro opts h; cases h
  | cons t rest ih =>
    intro opts h
    unfold parseOptionsLoop at h
    split at h
    · injection h with h2
      subst h2
      exact parseOption_syntax (by assumption)
    · exact ih _ h

theorem validateChoice_syntax {opts : fieldOptions} {e : Asn1Error}
    (h : validateChoice opts = .error e) : ∃ m, e = .syntaxError m := by
  unfold validateChoice at h
  split at h
  · split at h
    · injection h with h2; exact ⟨_, h2.symm⟩
    · cases h
  · cases h

theorem validateChoice_ok {opts : fieldOptions} (h : validateChoice opts = .ok ()) :
    ∀ c, opts.choice = some c → c ≠ "" := by
  intro c hc
  unfold validateChoice at h
  rw [hc] at h
  by_cases hce : c = ""
  · rw [hce] at h
    simp at h
  · exact hce

theorem validate_syntax {ctx : Context} {opts : fieldOptions} {e : Asn1Error}
    (h : validate ctx opts = .error e) : ∃ m, e = .syntaxError m := by
  unfold validate at h
  split at h
  · injection h with h2; exact ⟨_, h2.symm⟩
  split at h
  · injection h with h2; exact ⟨_, h2.symm⟩
  split at h
  · split at h
    · injection h with h2; exact ⟨_, h2.symm⟩
    · exact validateChoice_syntax h
  · exact validateChoice_syntax h

theorem validate_ok {ctx : Context} {opts : fieldOptions}
    (h : validate ctx opts = .ok ()) : optionsInvariant opts := by
  unfold validate at h
  unfold optionsInvariant
  split at h
  · cases h
  split at h
  · cases h
  next h1 h2 =>
  refine ⟨fun hu hn => h1 ⟨hu, hn⟩, fun ha hn => h2 ⟨ha, hn⟩, ?_, ?_⟩
  · split at h
    next t ht =>
      split at h
      · cases h
      next hneg =>
        intro t2 ht2
        rw [ht] at ht2
        injection ht2 with ht3
        omega
    next ht =>
      intro t2 ht2
      rw [ht] at ht2
      cases ht2
  · split at h
    next t ht =>
      split at h
      · cases h
      · exact validateChoice_ok h
    next ht => exact validateChoice_ok h

/-- C3: for every annotation string, `parseOptions` either fails with a
`SyntaxError` or returns an option record satisfying all four invariants:
`universal ⇒ tag` set, `application ⇒ tag` set, `tag ≥ 0`, and `choice`
non-empty. -/
theorem c3_option_record_validation (ctx : Context) (s : String) :
    (∃ m, parseOptions ctx s = .error (.syntaxError m)) ∨
    (∃ opts, parseOptions ctx s = .ok opts ∧ optionsInvariant opts) := by
  cases hl : parseOptionsLoop ctx {} (goSplit s ',') with
  | error e =>
    obtain ⟨m, rfl⟩ := parseOptionsLoop_syntax _ _ hl
    exact Or.inl ⟨m, by simp [parseOptions, hl]⟩
  | ok opts =>
    cases hv : validate ctx opts with
    | error e =>
      obtain ⟨m, rfl⟩ := validate_syntax hv
      exact Or.inl ⟨m, by simp [parseOptions, hl, hv]⟩
    | ok u =>
      cases u
      exact Or.inr ⟨opts, by simp [parseOptions, hl, hv], validate_ok hv⟩

/-! ## SEQUENCE matching (C1) -/

/-- C1: SEQUENCE matching scans expected elements in declaration order with
a single advancing raw index.  An expected element (with a live codec)
whose (class, tag) equals the current raw TLV's (class, tag) has its codec
invoked on the raw content and the raw index advanced, with all other
siblings of its choice group invalidated; an expected element that does
not match the current raw TLV (or for which no raw TLV remains) is skipped
when `optional` or part of a choice group, is assigned its default when
one is set, and otherwise fails with a `ParseError` naming the missing
(class, tag). -/
theorem c1_sequence_matching (ctx : Context) (e : expectedFieldElement)
    (evs : List expectedFieldElement) (rValues : List RawValue) (d : decoderFunction)
    (hd : e.decoder = some d) :
    matchExpectedValues ctx (e :: evs) rValues =
      match rValues with
      | raw :: rs =>
        if e.cls = raw.Class ∧ e.tag = raw.Tag then
          match d raw.Content with
          | .error err => .error err
          | .ok _ => matchExpectedValues ctx (invalidateSiblings e.opts.choice evs) rs
        else
          if e.opts.optional || e.opts.choice.isSome then
            matchExpectedValues ctx evs rValues
          else
            match e.opts.defaultValue with
            | some _ =>
              match setDefaultValue ctx e.typ e.opts with
              | .error err => .error err
              | .ok _ => matchExpectedValues ctx evs rValues
            | none => .error (.parseError (missingValueMsg e.cls e.tag))
      | [] =>
        if e.opts.optional || e.opts.choice.isSome then
          matchExpectedValues ctx evs rValues
        else
          match e.opts.defaultValue with
          | some _ =>
            match setDefaultValue ctx e.typ e.opts with
            | .error err => .error err
            | .ok _ => matchExpectedValues ctx evs rValues
          | none => .error (.parseError (missingValueMsg e.cls e.tag)) := by
  unfold matchExpectedValues
  simp only [List.length_cons, matchExpectedValuesLoop, hd,
    invalidateSiblings_length]

theorem c1_sequence_matching_witness :
    matchExpectedValues newContext [c1elem] [c1raw] = .ok () := by
  have h := c1_sequence_matching newContext c1elem [] [c1raw] decodeInt rfl
  rw [h]
  rfl

/-! ## SET decoding order (C2) -/

/-- C2: SET decoding first sorts the expected elements by (class, tag)
ascending; in BER mode (DER decoding flag false) the raw TLVs are also
sorted by (class, tag) before matching, while in DER mode they are matched
in transmitted order — so the concrete out-of-order DER SET below fails
with a missing-value `ParseError` while the same bytes decode in BER
mode.  (The two `sort.Sort` comparators are modelled from the spec as
`fieldLE` and `rawLE`.) -/
theorem c2_set_decoding_order (fuel : Nat) (ctx : Context)
    (fields : List (GoType × String)) (data : List Nat) :
    (decodeStructAsSet (fuel + 1) ctx fields data =
      match getExpectedFieldElements fuel ctx fields with
      | .error e => .error e
      | .ok evs =>
        let sortedEvs := List.insertionSort fieldLE evs
        match checkDuplicates sortedEvs with
        | some ct => .error (.syntaxError (duplicatedTagMsg ct.1 ct.2))
        | none =>
          match getRawValuesFromBytes fuel ctx data sortedEvs.length with
          | .error e => .error e
          | .ok rvs =>
            matchExpectedValues ctx sortedEvs
              (if ctx.der.decoding then rvs else List.insertionSort rawLE rvs)) ∧
    (∀ evs : List expectedFieldElement, (List.insertionSort fieldLE evs).Sorted fieldLE) ∧
    (∀ rvs : List RawValue, (List.insertionSort rawLE rvs).Sorted rawLE) ∧
    decodeStructAsSet 30 (SetDer newContext true true)
        [(GoType.intT, "tag:0"), (GoType.intT, "")] [128, 1, 9, 2, 1, 3] =
      .error (.parseError (missingValueMsg ClassUniversal TagInteger)) ∧
    decodeStructAsSet 30 newContext
        [(GoType.intT, "tag:0"), (GoType.intT, "")] [128, 1, 9, 2, 1, 3] = .ok () := by
  refine ⟨rfl, ?_, ?_, rfl, rfl⟩
  · exact fun evs => List.sorted_insertionSort fieldLE evs
  · exact fun rvs => List.sorted_insertionSort rawLE rvs

/-! ## Class/tag override resolution (C4) -/

/-- `getExpectedElement` depends on its raw-value hint only through the
class and tag fields. -/
theorem getExpectedElement_mk (fuel : Nat) (ctx : Context) (c t : Nat)
    (b1 i1 : Bool) (l1 : List Nat) (b2 i2 : Bool) (l2 : List Nat)
    (typ : GoType) (opts : fieldOptions) :
    getExpectedElement fuel ctx ⟨c, t, b1, i1, l1⟩ typ opts =
      getExpectedElement fuel ctx ⟨c, t, b2, i2, l2⟩ typ opts := by
  cases fuel <;> rfl

/-- C4 (amended): for a non-choice option record accepted by the resolver,
a set option tag forces the expected element's tag to that tag and its
class to ContextSpecific, with the `universal` and `application` flags
overriding the class (application winning when both are set).  The original
claim fails for records carrying a `choice`, whose class and tag come from
the raw hint instead (see the counterexample). -/
theorem c4_class_tag_overrides (fuel : Nat) (ctx : Context) (raw : RawValue)
    (typ : GoType) (opts : fieldOptions) (elem : expectedElement) (t : Int)
    (hch : opts.choice = none) (ht : opts.tag = some t)
    (hok : getExpectedElement (fuel + 1) ctx raw typ opts = .ok elem) :
    elem.cls = (if opts.application then ClassApplication
                else if opts.universal then ClassUniversal
                else ClassContextSpecific) ∧
    elem.tag = t.toNat := by
  cases hut : getUniversalTag fuel ctx typ opts with
  | error e => simp [getExpectedElement, hut] at hok
  | ok elem0 =>
    simp only [getExpectedElement, hut, ht, hch] at hok
    cases hu : opts.universal <;> cases ha : opts.application <;> cases hex : opts.explicit <;>
      simp only [hu, ha, hex, Bool.false_eq_true, if_true, if_false, ite_true, ite_false] at hok ⊢
    all_goals
      first
      | (injection hok with h2; rw [h2.symm]; exact ⟨rfl, rfl⟩)
      | (split at hok
         · injection hok with h2; rw [h2.symm]; exact ⟨rfl, rfl⟩
         · cases hok)

/-- C4 counterexample: an option record with both `tag:5` and `choice:x`
is accepted by the resolver (its annotation parses), yet the resolved
element's (class, tag) is the raw hint's (Universal, INTEGER), not
(ContextSpecific, 5) as the claim states. -/
theorem c4_counterexample :
    parseOptions c4ctx "tag:5,choice:x" = .ok c4opts ∧
    (match getExpectedElement 30 c4ctx c4raw GoType.intT c4opts with
     | .ok elem => some (elem.cls, elem.tag)
     | .error _ => none) = some (ClassUniversal, TagInteger) ∧
    (ClassUniversal, TagInteger) ≠ (ClassContextSpecific, (5 : Int).toNat) := by
  refine ⟨rfl, rfl, by decide⟩

theorem c4_class_tag_overrides_witness :
    ({ tag := some 5 } : fieldOptions).choice = none ∧
    c4welem.cls = ClassContextSpecific ∧ c4welem.tag = (5 : Int).toNat := by
  have h := c4_class_tag_overrides 5 newContext {} GoType.intT { tag := some 5 } c4welem 5
    rfl rfl rfl
  exact ⟨rfl, by simpa using h⟩

/-! ## Choice uniqueness (C5) -/

/-- C5 (amended): registering a second variant with the (class, tag) of an
already registered variant under the same name fails, but with the plain
`fmt.Errorf` duplicate error, not a `SyntaxError`. -/
theorem c5_duplicate_choice_rejected (ctx : Context) (choice : String)
    (entry e0 : choiceEntry) (h0 : e0 ∈ (choicesGet ctx.choices choice).getD [])
    (hc : e0.cls = entry.cls) (ht : e0.tag = entry.tag) :
    addChoiceEntry ctx choice entry =
      .error (.goError (choiceAlreadyRegisteredMsg choice entry.cls entry.tag)) := by
  unfold addChoiceEntry
  have hany : ((choicesGet ctx.choices choice).getD []).any
      (fun cur => cur.cls == entry.cls && cur.tag == entry.tag) = true :=
    List.any_eq_true.mpr ⟨e0, h0, by simp [hc, ht]⟩
  simp [hany]

/-- C5 counterexample: registering an `int` variant and then a `uint`
variant (both resolving to (Universal, INTEGER)) under the name "x" fails
as the claim says, but the resulting error is the plain duplicate error
built with `fmt.Errorf`, which is not a `SyntaxError`. -/
theorem c5_counterexample :
    (AddChoice 30 newContext "x" [⟨GoType.intT, ""⟩]).2 = none ∧
    (AddChoice 30 c5ctx1 "x" [⟨GoType.uintT, ""⟩]).2 =
      some (.goError (choiceAlreadyRegisteredMsg "x" ClassUniversal TagInteger)) ∧
    (∀ m, Asn1Error.goError (choiceAlreadyRegisteredMsg "x" ClassUniversal TagInteger) ≠
      .syntaxError m) :=
  ⟨rfl, rfl, fun _ h => by cases h⟩

theorem c5_duplicate_choice_rejected_witness :
    addChoiceEntry c5ctx1 "x" c5entry =
      .error (.goError (choiceAlreadyRegisteredMsg "x" ClassUniversal TagInteger)) :=
  c5_duplicate_choice_rejected c5ctx1 "x" c5entry c5entry (List.Mem.head _) rfl rfl

/-! ## Duplicated tags in a SET (C6) -/

/-- C6 (amended): when the sorted expected elements of a SET contain two
adjacent elements with the same (class, tag), `decodeStructAsSet` fails
with a `SyntaxError` naming the duplicated (class, tag) — not with a
`ParseError` as the claim states. -/
theorem c6_duplicate_set_tags (fuel : Nat) (ctx : Context)
    (fields : List (GoType × String)) (data : List Nat)
    (evs : List expectedFieldElement) (c t : Nat)
    (hev : getExpectedFieldElements fuel ctx fields = .ok evs)
    (hdup : checkDuplicates (List.insertionSort fieldLE evs) = some (c, t)) :
    decodeStructAsSet (fuel + 1) ctx fields data =
      .error (.syntaxError (duplicatedTagMsg c t)) := by
  simp only [decodeStructAsSet, hev, hdup]

/-- C6 counterexample: a SET of two `int` fields fails (for any content,
here empty) with `SyntaxError "Duplicated tag (0,2)"`, which is not a
`ParseError`. -/
theorem c6_counterexample :
    decodeStructAsSet 30 newContext [(GoType.intT, ""), (GoType.intT, "")] [] =
      .error (.syntaxError (duplicatedTagMsg ClassUniversal TagInteger)) ∧
    (∀ m, Asn1Error.syntaxError (duplicatedTagMsg ClassUniversal TagInteger) ≠
      .parseError m) :=
  ⟨rfl, fun _ h => by cases h⟩

theorem c6_duplicate_set_tags_witness :
    decodeStructAsSet (29 + 1) newContext [(GoType.intT, ""), (GoType.intT, "")] [1] =
      .error (.syntaxError (duplicatedTagMsg ClassUniversal TagInteger)) :=
  c6_duplicate_set_tags 29 newContext [(GoType.intT, ""), (GoType.intT, "")] [1]
    [c6elem, c6elem] ClassUniversal TagInteger rfl rfl

/-! ## Integer defaults (C7) -/

theorem setDefaultValue_nonint (ctx : Context) (typ : GoType) (opts : fieldOptions)
    (h : isIntegerKind typ = false) :
    setDefaultValue ctx typ opts =
      .error (.syntaxError "Default value is only allow to integers") := by
  cases typ <;> simp_all [isIntegerKind, setDefaultValue]

/-- C7 counterexample: a record with a `string` field annotated
`default:5` passes schema resolution, and decoding it succeeds when the
field's TLV is present — refuting the claim that decoding such a record
fails regardless of the field's presence. -/
theorem c7_counterexample :
    getExpectedFieldElements 29 newContext [(GoType.stringT, "default:5")] = .ok [c7elem] ∧
    decodeStruct 30 newContext [(GoType.stringT, "default:5")] [4, 1, 97] = .ok () :=
  ⟨rfl, rfl⟩

/-- C7 (amended): a default on a non-integer field is not rejected at
schema-resolution time; decoding fails — with the `SyntaxError` of
`setDefaultValue`, raised during matching — exactly when the field is
absent and the default is applied. -/
theorem c7_nonint_default_fails_when_missing (ctx : Context)
    (e : expectedFieldElement) (evs : List expectedFieldElement)
    (d : decoderFunction) (v : Int)
    (hd : e.decoder = some d) (hint : isIntegerKind e.typ = false)
    (hopt : e.opts.optional = false) (hch : e.opts.choice = none)
    (hdef : e.opts.defaultValue = some v) :
    matchExpectedValues ctx (e :: evs) [] =
      .error (.syntaxError "Default value is only allow to integers") := by
  unfold matchExpectedValues
  simp only [List.length_cons, matchExpectedValuesLoop, hd, hopt, hch, hdef,
    Option.isSome_none, Bool.or_self, Bool.false_eq_true, if_false,
    setDefaultValue_nonint ctx e.typ e.opts hint]

theorem c7_nonint_default_fails_when_missing_witness :
    matchExpectedValues newContext [c7elem] [] =
      .error (.syntaxError "Default value is only allow to integers") :=
  c7_nonint_default_fails_when_missing newContext c7elem [] decodeString 5
    rfl rfl rfl rfl rfl

/-! ## The constructed bit is never inspected (C8) -/

/-- C8: the decoder never inspects the constructed bit of an incoming TLV:
two raw TLVs identical except for the constructed flag produce the same
decode outcome (same success or same error), because the tag-match check
compares only class and tag. -/
theorem c8_constructed_flag_ignored (fuel : Nat) (ctx : Context) (typ : GoType)
    (opts : fieldOptions) (raw : RawValue) (b : Bool) :
    decodePostRaw fuel ctx { raw with Constructed := b } typ opts =
      decodePostRaw fuel ctx raw typ opts := by
  cases raw with
  | mk c t con ind cont =>
    cases fuel with
    | zero => rfl
    | succ n =>
      simp only [decodePostRaw]
      rw [getExpectedElement_mk n ctx c t b ind cont con ind cont typ opts]

/-! ## Empty SEQUENCE/SET content always fails (C9) -/

/-- C9: decoding a SEQUENCE or SET whose content octets are empty always
fails, on both the `decodeStruct` and the `decodeStructAsSet` path: with
zero expected fields the raw-value extraction fails with
`Too many items for Sequence.` even though no bytes remain, and with at
least one expected element each path fails reading a TLV from the empty
content (the SET path provided its earlier duplicate-tag check does not
already fail it) — even when every field is optional or has a default. -/
theorem c9_empty_content_always_fails (fuel : Nat) (ctx : Context)
    (fields : List (GoType × String)) (hf : 3 ≤ fuel) :
    (∃ e, decodeStruct fuel ctx fields [] = .error e) ∧
    (∃ e, decodeStructAsSet fuel ctx fields [] = .error e) ∧
    (fields = [] →
      decodeStruct fuel ctx fields [] =
        .error (.parseError "Too many items for Sequence.") ∧
      decodeStructAsSet fuel ctx fields [] =
        .error (.parseError "Too many items for Sequence.")) ∧
    (∀ evs, getExpectedFieldElements (fuel - 1) ctx fields = .ok evs → evs ≠ [] →
      decodeStruct fuel ctx fields [] = .error (.parseError "truncated input") ∧
      (checkDuplicates (List.insertionSort fieldLE evs) = none →
        decodeStructAsSet fuel ctx fields [] =
          .error (.parseError "truncated input"))) := by
  obtain ⟨k, rfl⟩ : ∃ k, fuel = k + 3 := ⟨fuel - 3, by omega⟩
  have h3 : decodeStruct (k + 3) ctx fields [] =
      match getExpectedFieldElements (k + 2) ctx fields with
      | .error e => .error e
      | .ok evs =>
        match getRawValuesFromBytes (k + 2) ctx [] evs.length with
        | .error e => .error e
        | .ok rvs => matchExpectedValues ctx evs rvs := rfl
  have h3s : decodeStructAsSet (k + 3) ctx fields [] =
      match getExpectedFieldElements (k + 2) ctx fields with
      | .error e => .error e
      | .ok evs =>
        let sortedEvs := List.insertionSort fieldLE evs
        match checkDuplicates sortedEvs with
        | some ct => .error (.syntaxError (duplicatedTagMsg ct.1 ct.2))
        | none =>
          match getRawValuesFromBytes (k + 2) ctx [] sortedEvs.length with
          | .error e => .error e
          | .ok rvs =>
            matchExpectedValues ctx sortedEvs
              (if ctx.der.decoding then rvs else List.insertionSort rawLE rvs) := rfl
  have hraw : ∀ m, getRawValuesFromBytes (k + 2) ctx [] (m + 1) =
      .error (.parseError "truncated input") := fun m => rfl
  refine ⟨?_, ?_, ?_, ?_⟩
  · cases hev : getExpectedFieldElements (k + 2) ctx fields with
    | error e => exact ⟨e, by rw [h3, hev]⟩
    | ok evs =>
      cases evs with
      | nil => exact ⟨.parseError "Too many items for Sequence.", by rw [h3, hev]; rfl⟩
      | cons e0 es =>
        refine ⟨.parseError "truncated input", ?_⟩
        rw [h3, hev]
        simp only [List.length_cons]
        rw [hraw es.length]
  · cases hev : getExpectedFieldElements (k + 2) ctx fields with
    | error e => exact ⟨e, by rw [h3s, hev]⟩
    | ok evs =>
      cases hdup : checkDuplicates (List.insertionSort fieldLE evs) with
      | some ct =>
        refine ⟨.syntaxError (duplicatedTagMsg ct.1 ct.2), ?_⟩
        rw [h3s, hev]
        simp only [hdup]
      | none =>
        cases evs with
        | nil =>
          exact ⟨.parseError "Too many items for Sequence.", by rw [h3s, hev]; rfl⟩
        | cons e0 es =>
          refine ⟨.parseError "truncated input", ?_⟩
          rw [h3s, hev]
          simp only [hdup, List.length_insertionSort, List.length_cons]
          rw [hraw es.length]
  · intro h
    subst h
    exact ⟨rfl, rfl⟩
  · intro evs hev hne
    cases evs with
    | nil => exact absurd rfl hne
    | cons e0 es =>
      have hev2 : getExpectedFieldElements (k + 2) ctx fields = .ok (e0 :: es) := hev
      constructor
      · rw [h3, hev2]
        simp only [List.length_cons]
        rw [hraw es.length]
      · intro hdup
        rw [h3s, hev2]
        simp only [hdup, List.length_insertionSort, List.length_cons]
        rw [hraw es.length]

theorem c9_empty_content_always_fails_witness :
    decodeStruct 3 newContext [] [] = .error (.parseError "Too many items for Sequence.") ∧
    decodeStructAsSet 3 newContext [] [] =
      .error (.parseError "Too many items for Sequence.") ∧
    decodeStruct 30 newContext [(GoType.stringT, "optional"), (GoType.intT, "default:7")] [] =
      .error (.parseError "truncated input") ∧
    decodeStructAsSet 30 newContext
        [(GoType.stringT, "optional"), (GoType.intT, "default:7")] [] =
      .error (.parseError "truncated input") :=
  ⟨((c9_empty_content_always_fails 3 newContext [] (by decide)).2.2.1 rfl).1,
   ((c9_empty_content_always_fails 3 newContext [] (by decide)).2.2.1 rfl).2,
   rfl, rfl⟩

/-! ## Fresh contexts decode BER (C10) -/

/-- C10: a freshly created context has DER mode enabled for encoding and
disabled for decoding; the package-level `Decode` facade uses such a fresh
context; with the decoding flag off the decoder's outcome is independent of
the indefinite flag of the incoming TLV (the DER-only rejection never
fires), and a concrete indefinite-length BER encoding decodes
successfully. -/
theorem c10_fresh_context_ber_decoding :
    newContext.der.encoding = true ∧
    newContext.der.decoding = false ∧
    (∀ fuel data typ, Decode fuel data typ = ctxDecodeWithOptions fuel newContext data typ "") ∧
    (∀ fuel typ opts (raw : RawValue) (b : Bool),
      decodePostRaw fuel newContext { raw with Indefinite := b } typ opts =
        decodePostRaw fuel newContext raw typ opts) ∧
    ctxDecodeWithOptions 30 newContext [36, 128, 0, 0] GoType.stringT "" = .ok [] := by
  refine ⟨rfl, rfl, fun _ _ _ => rfl, ?_, rfl⟩
  intro fuel typ opts raw b
  cases raw with
  | mk c t con ind cont =>
    cases fuel with
    | zero => rfl
    | succ n =>
      simp only [decodePostRaw]
      rw [getExpectedElement_mk n newContext c t con b cont con ind cont typ opts]
      rfl

end Asn1
